import Mathlib

/-
Verification development for the Design Challenge Coach session core.

The definitions below are a shallow embedding of the repository's code:
- `src/app/page.tsx` : phase timer, manual phase change, coverage-tag
  detection, transcript handling, speech playback (`speakText`);
- `src/app/api/coach/route.ts` : coach-nudge request validation and payload;
- `src/app/api/evaluate/route.ts` : evaluation request validation and
  response parsing (JavaScript `JSON.parse` is modelled by `jsonParse`);
- `src/app/api/tts/route.ts` : text-to-speech request validation.

Strings are modelled as `List Char` where substring scanning matters
(JavaScript `String.prototype.includes` becomes `includes` below) and as
Lean `String` elsewhere.  JavaScript truthiness of an optional string field
(`!x` is true for a missing field and for the empty string) is `jsFalsyStr`;
an array field is truthy whenever it is present, even when empty.
-/

namespace DesignCoach

/-! ## Phase timer (src/app/page.tsx) -/

/-- The three interview phases (`type Phase` in page.tsx). -/
inductive Phase where
  | Discovery
  | HeadsDown
  | Presentation
deriving DecidableEq, Repr

/-- `PHASE_DURATIONS` from page.tsx: Discovery 20*60, Heads-down 25*60,
Presentation 15*60 seconds. -/
def PHASE_DURATIONS : Phase → Nat
  | Phase.Discovery => 20 * 60
  | Phase.HeadsDown => 25 * 60
  | Phase.Presentation => 15 * 60

/-- The clock portion of the component state: `phase`, `timeLeft`,
`isRunning` in page.tsx. -/
structure ClockState where
  phase : Phase
  timeLeft : Nat
  running : Bool
deriving DecidableEq, Repr

/-- The session clock as the spec's initial state: Discovery phase, full
Discovery duration, running. -/
def initialClock : ClockState :=
  { phase := Phase.Discovery, timeLeft := PHASE_DURATIONS Phase.Discovery, running := true }

/-- One 1-second tick of the timer `useEffect` in page.tsx.  When not
running no interval exists, so the state is unchanged.  Otherwise the
`setTimeLeft` updater receives `prev = timeLeft`: if `prev <= 1` the
non-terminal phases advance and the time resets to the next phase's full
duration, the terminal phase stops the clock at 0; otherwise the time
decrements by one. -/
def tick (s : ClockState) : ClockState :=
  if !s.running then s
  else if s.timeLeft ≤ 1 then
    match s.phase with
    | Phase.Discovery =>
        { s with phase := Phase.HeadsDown, timeLeft := PHASE_DURATIONS Phase.HeadsDown }
    | Phase.HeadsDown =>
        { s with phase := Phase.Presentation, timeLeft := PHASE_DURATIONS Phase.Presentation }
    | Phase.Presentation =>
        { s with running := false, timeLeft := 0 }
  else { s with timeLeft := s.timeLeft - 1 }

/-- `changePhase` from page.tsx: set the phase, reset the remaining time to
that phase's full duration, and force the clock to run, whatever the prior
state was. -/
def changePhase (s : ClockState) (newPhase : Phase) : ClockState :=
  { s with phase := newPhase, timeLeft := PHASE_DURATIONS newPhase, running := true }

/-! ## Coverage detector (updateCoverageTags in src/app/page.tsx) -/

/-- The seven topic keys of the `CoverageTags` interface. -/
inductive Topic where
  | framing
  | constraints
  | users
  | ideation
  | systems
  | metrics
  | accessibility
deriving DecidableEq, Repr, Fintype

/-- The `CoverageTags` interface of page.tsx: one satisfied flag per topic. -/
structure CoverageTags where
  framing : Bool
  constraints : Bool
  users : Bool
  ideation : Bool
  systems : Bool
  metrics : Bool
  accessibility : Bool
deriving DecidableEq, Repr

/-- The initial coverage state of page.tsx: every flag false. -/
def initialCoverage : CoverageTags :=
  { framing := false, constraints := false, users := false, ideation := false,
    systems := false, metrics := false, accessibility := false }

/-- Projection of the flag belonging to one topic key. -/
def flagOf : Topic → CoverageTags → Bool
  | Topic.framing => CoverageTags.framing
  | Topic.constraints => CoverageTags.constraints
  | Topic.users => CoverageTags.users
  | Topic.ideation => CoverageTags.ideation
  | Topic.systems => CoverageTags.systems
  | Topic.metrics => CoverageTags.metrics
  | Topic.accessibility => CoverageTags.accessibility

/-- `text.toLowerCase()` on the character-list view of a string. -/
def lowerChars (text : List Char) : List Char :=
  text.map Char.toLower

/-- JavaScript `haystack.includes(needle)`: the needle occurs contiguously
somewhere in the haystack (the empty needle always occurs). -/
def includes (needle : List Char) : List Char → Bool
  | [] => needle.isEmpty
  | c :: rest => needle.isPrefixOf (c :: rest) || includes needle rest

/-- The per-topic conditions of `updateCoverageTags` in page.tsx, applied to
the already lower-cased input. -/
def matchesTopic (lowerText : List Char) : Topic → Bool
  | Topic.framing =>
      includes "goal".toList lowerText || includes "problem".toList lowerText
  | Topic.constraints =>
      includes "constraint".toList lowerText || includes "limit".toList lowerText
  | Topic.users =>
      includes "user".toList lowerText || includes "persona".toList lowerText
  | Topic.ideation =>
      includes "idea".toList lowerText || includes "approach".toList lowerText
  | Topic.systems =>
      includes "state".toList lowerText || includes "flow".toList lowerText ||
        includes "error".toList lowerText
  | Topic.metrics =>
      includes "metric".toList lowerText || includes "kpi".toList lowerText ||
        includes "experiment".toList lowerText
  | Topic.accessibility =>
      includes "accessibility".toList lowerText || includes "wcag".toList lowerText

/-- `updateCoverageTags` from page.tsx: lower-case the text once, then merge
`updates` into the previous tags with object spread — a flag ends up true
exactly when it was already true or its topic matched the new text. -/
def updateCoverageTags (prev : CoverageTags) (text : List Char) : CoverageTags :=
  let lowerText := lowerChars text
  { framing := prev.framing || matchesTopic lowerText Topic.framing,
    constraints := prev.constraints || matchesTopic lowerText Topic.constraints,
    users := prev.users || matchesTopic lowerText Topic.users,
    ideation := prev.ideation || matchesTopic lowerText Topic.ideation,
    systems := prev.systems || matchesTopic lowerText Topic.systems,
    metrics := prev.metrics || matchesTopic lowerText Topic.metrics,
    accessibility := prev.accessibility || matchesTopic lowerText Topic.accessibility }

/-- The spec's Coverage Detector view of updateCoverageTags: the set of
topic keys an utterance matches. -/
def detect (text : List Char) : Finset Topic :=
  Finset.univ.filter (fun k => matchesTopic (lowerChars text) k = true)

/-- Modelled from the spec's keyword table (section 4.1): the fixed keyword
list of each topic, used to compare `detect` with the spec's wording. -/
def specTopicKeywords : Topic → List (List Char)
  | Topic.framing => ["goal".toList, "problem".toList]
  | Topic.constraints => ["constraint".toList, "limit".toList]
  | Topic.users => ["user".toList, "persona".toList]
  | Topic.ideation => ["idea".toList, "approach".toList]
  | Topic.systems => ["state".toList, "flow".toList, "error".toList]
  | Topic.metrics => ["metric".toList, "kpi".toList, "experiment".toList]
  | Topic.accessibility => ["accessibility".toList, "wcag".toList]

/-! ## A model of JavaScript JSON.parse

The evaluate route hands the raw model output to `JSON.parse` and treats a
thrown exception as the parse failure.  `jsonParse` below is an executable
recursive-descent reader of the JSON grammar (objects, arrays, strings with
simple escapes, number lexemes kept verbatim, literals), returning `none`
where `JSON.parse` would throw. -/

/-- Parsed JSON values; numbers keep their source lexeme. -/
inductive Json where
  | null
  | bool (b : Bool)
  | num (lexeme : List Char)
  | str (s : List Char)
  | arr (elems : List Json)
  | obj (fields : List (List Char × Json))

/-- JSON insignificant whitespace. -/
def isJsonWs (c : Char) : Bool :=
  c = ' ' || c = '\n' || c = '\t' || c = '\r'

/-- Drop leading JSON whitespace. -/
def skipWs : List Char → List Char
  | [] => []
  | c :: rest => if isJsonWs c then skipWs rest else c :: rest

/-- Translation of a character following a backslash in a JSON string. -/
def escapeChar (c : Char) : Char :=
  if c = 'n' then '\n'
  else if c = 't' then '\t'
  else if c = 'r' then '\r'
  else c

/-- Read a JSON string body after the opening quote, up to the closing
quote; returns the decoded characters and the rest of the input. -/
def parseStringBody : List Char → Option (List Char × List Char)
  | [] => none
  | c :: rest =>
    if c = '\x22' then some ([], rest)
    else if c = '\\' then
      match rest with
      | [] => none
      | e :: rest2 =>
        match parseStringBody rest2 with
        | none => none
        | some (s, remaining) => some (escapeChar e :: s, remaining)
    else
      match parseStringBody rest with
      | none => none
      | some (s, remaining) => some (c :: s, remaining)

/-- Longest leading run of decimal digits. -/
def takeDigits : List Char → (List Char × List Char)
  | [] => ([], [])
  | c :: rest =>
    if c.isDigit then
      let (ds, remaining) := takeDigits rest
      (c :: ds, remaining)
    else ([], c :: rest)

/-- Read the fractional part `.digits` if present; fails on a bare dot. -/
def parseFrac (input : List Char) : Option (List Char × List Char) :=
  match input with
  | c :: rest =>
    if c = '.' then
      let (ds, remaining) := takeDigits rest
      if ds.isEmpty then none else some ('.' :: ds, remaining)
    else some ([], input)
  | [] => some ([], [])

/-- Read the exponent part `(e|E)(+|-)?digits` if present. -/
def parseExp (input : List Char) : Option (List Char × List Char) :=
  match input with
  | c :: rest =>
    if c = 'e' || c = 'E' then
      match rest with
      | s :: rest2 =>
        if s = '+' || s = '-' then
          let (ds, remaining) := takeDigits rest2
          if ds.isEmpty then none else some (c :: s :: ds, remaining)
        else
          let (ds, remaining) := takeDigits rest
          if ds.isEmpty then none else some (c :: ds, remaining)
      | [] => none
    else some ([], input)
  | [] => some ([], [])

/-- Read a JSON number lexeme: optional minus, integer part, optional
fraction, optional exponent. -/
def parseNumber (input : List Char) : Option (List Char × List Char) :=
  let (sign, afterSign) :=
    match input with
    | c :: rest => if c = '-' then ([c], rest) else (([] : List Char), input)
    | [] => ([], [])
  let (intPart, afterInt) := takeDigits afterSign
  if intPart.isEmpty then none
  else
    match parseFrac afterInt with
    | none => none
    | some (fracPart, afterFrac) =>
      match parseExp afterFrac with
      | none => none
      | some (expPart, remaining) =>
        some (sign ++ intPart ++ fracPart ++ expPart, remaining)

mutual

/-- Read one JSON value from the input (fuel bounds the nesting work). -/
def parseValue : Nat → List Char → Option (Json × List Char)
  | 0, _ => none
  | fuel + 1, input =>
    match skipWs input with
    | [] => none
    | c :: rest =>
      if c = 'n' then
        match rest with
        | 'u' :: 'l' :: 'l' :: remaining => some (Json.null, remaining)
        | _ => none
      else if c = 't' then
        match rest with
        | 'r' :: 'u' :: 'e' :: remaining => some (Json.bool true, remaining)
        | _ => none
      else if c = 'f' then
        match rest with
        | 'a' :: 'l' :: 's' :: 'e' :: remaining => some (Json.bool false, remaining)
        | _ => none
      else if c = '\x22' then
        match parseStringBody rest with
        | none => none
        | some (s, remaining) => some (Json.str s, remaining)
      else if c = '[' then
        match skipWs rest with
        | d :: rest2 =>
          if d = ']' then some (Json.arr [], rest2)
          else
            match parseElems fuel (d :: rest2) with
            | none => none
            | some (vs, remaining) => some (Json.arr vs, remaining)
        | [] => none
      else if c = '\x7b' then
        match skipWs rest with
        | d :: rest2 =>
          if d = '\x7d' then some (Json.obj [], rest2)
          else
            match parseMembers fuel (d :: rest2) with
            | none => none
            | some (fs, remaining) => some (Json.obj fs, remaining)
        | [] => none
      else if c = '-' || c.isDigit then
        match parseNumber (c :: rest) with
        | none => none
        | some (lexeme, remaining) => some (Json.num lexeme, remaining)
      else none

/-- Read `value (, value)*` up to and including the closing bracket. -/
def parseElems : Nat → List Char → Option (List Json × List Char)
  | 0, _ => none
  | fuel + 1, input =>
    match parseValue fuel input with
    | none => none
    | some (v, rest) =>
      match skipWs rest with
      | c :: rest2 =>
        if c = ',' then
          match parseElems fuel rest2 with
          | none => none
          | some (vs, remaining) => some (v :: vs, remaining)
        else if c = ']' then some ([v], rest2)
        else none
      | [] => none

/-- Read `string : value (, string : value)*` up to and including the
closing brace. -/
def parseMembers : Nat → List Char → Option (List (List Char × Json) × List Char)
  | 0, _ => none
  | fuel + 1, input =>
    match skipWs input with
    | c :: rest =>
      if c = '\x22' then
        match parseStringBody rest with
        | none => none
        | some (key, afterKey) =>
          match skipWs afterKey with
          | d :: afterColon =>
            if d = ':' then
              match parseValue fuel afterColon with
              | none => none
              | some (v, rest2) =>
                match skipWs rest2 with
                | e :: rest3 =>
                  if e = ',' then
                    match parseMembers fuel rest3 with
                    | none => none
                    | some (fs, remaining) => some ((key, v) :: fs, remaining)
                  else if e = '\x7d' then some ([(key, v)], rest3)
                  else none
                | [] => none
            else none
          | [] => none
      else none
    | [] => none

end

/-- The model of `JSON.parse(text)`: read one value, require only
whitespace after it, otherwise fail. -/
def jsonParse (text : String) : Option Json :=
  match parseValue (text.toList.length + 1) text.toList with
  | some (j, rest) => if skipWs rest = [] then some j else none
  | none => none

/-- Whether a parsed JSON value is an object carrying the given key. -/
def hasKey (j : Json) (key : String) : Bool :=
  match j with
  | Json.obj fields => fields.any (fun f => f.1 = key.toList)
  | _ => false

/-! ## Request bodies and JavaScript truthiness -/

/-- One transcript entry as sent over the wire (`Message` in page.tsx). -/
structure Message where
  role : String
  text : String
deriving DecidableEq, Repr

/-- JavaScript `!x` on an optional string field: true when the field is
absent and when it holds the empty string. -/
def jsFalsyStr : Option String → Bool
  | none => true
  | some s => s = ""

/-- The destructured body `{ phase, prompt, transcript, coverageTags,
screenshotCount }` shared by the coach and evaluate routes; each field may
be absent. -/
structure SnapshotBody where
  phase : Option String
  prompt : Option String
  transcript : Option (List Message)
  coverageTags : Option CoverageTags
  screenshotCount : Option Nat
deriving DecidableEq, Repr

/-! ## Coach route (src/app/api/coach/route.ts) -/

/-- `allTags` from the coach route. -/
def allTags : List String :=
  ["framing", "constraints", "users", "ideation", "systems", "metrics", "accessibility"]

/-- `coverageTags[tag]` for the seven known keys of the CoverageTags shape;
any other key reads as absent, hence falsy. -/
def tagIsCovered (c : CoverageTags) (tag : String) : Bool :=
  if tag = "framing" then c.framing
  else if tag = "constraints" then c.constraints
  else if tag = "users" then c.users
  else if tag = "ideation" then c.ideation
  else if tag = "systems" then c.systems
  else if tag = "metrics" then c.metrics
  else if tag = "accessibility" then c.accessibility
  else false

/-- `Object.keys(coverageTags || \x7b\x7d).filter(tag => coverageTags[tag])`:
an absent coverage object yields no keys, a present one yields its truthy
keys in declaration order. -/
def coveredTagsOf : Option CoverageTags → List String
  | none => []
  | some c => allTags.filter (fun tag => tagIsCovered c tag)

/-- `allTags.filter(tag => !coveredTags.includes(tag))`. -/
def missingTagsOf (covered : List String) : List String :=
  allTags.filter (fun tag => !(covered.contains tag))

/-- The data the coach route hands to the external model call once
validation has passed. -/
structure CoachRequest where
  phase : String
  prompt : String
  transcript : List Message
  coveredTags : List String
  missingTags : List String
  screenshotCount : Nat
deriving DecidableEq, Repr

/-- Outcome of the coach route up to the network boundary: either the 400
validation response, or the call to the Coach Service. -/
inductive CoachOutcome where
  | invalidRequest (status : Nat) (message : String)
  | callService (req : CoachRequest)
deriving DecidableEq, Repr

/-- Whether the outcome reaches the external service. -/
def coachCallsService : CoachOutcome → Bool
  | CoachOutcome.callService _ => true
  | _ => false

/-- The coach route's `POST` up to its network call: the guard
`if (!phase || !prompt || !transcript)` returns the 400 response, otherwise
the request payload (with covered and missing topic lists) goes to the
service. -/
def coachPOST (body : SnapshotBody) : CoachOutcome :=
  if jsFalsyStr body.phase || jsFalsyStr body.prompt || body.transcript.isNone then
    CoachOutcome.invalidRequest 400 "Missing required fields: phase, prompt, transcript"
  else
    let covered := coveredTagsOf body.coverageTags
    CoachOutcome.callService
      { phase := body.phase.getD "",
        prompt := body.prompt.getD "",
        transcript := body.transcript.getD [],
        coveredTags := covered,
        missingTags := missingTagsOf covered,
        screenshotCount := body.screenshotCount.getD 0 }

/-! ## Evaluate route (src/app/api/evaluate/route.ts) -/

/-- Outcome of the evaluate route: the 400 validation response, the parsed
evaluation passed through as success, or the parse-failure response carrying
the raw model text. -/
inductive EvalOutcome where
  | invalidRequest (status : Nat) (message : String)
  | success (evaluation : Json)
  | parseError (message : String) (raw : String)

/-- The response-handling tail of the evaluate route: `JSON.parse(text)`
inside try/catch — success returns the parsed value unchanged, a thrown
parse failure returns the error object carrying the raw text. -/
def evaluateHandleResponse (text : String) : EvalOutcome :=
  match jsonParse text with
  | some evaluation => EvalOutcome.success evaluation
  | none => EvalOutcome.parseError "Failed to parse evaluation" text

/-- Whether the evaluate outcome is the parse-failure response. -/
def isParseError : EvalOutcome → Bool
  | EvalOutcome.parseError _ _ => true
  | _ => false

/-- The evaluate route's `POST`, with the Evaluator Service's raw response
text supplied as a parameter: the guard `if (!prompt || !transcript)`
returns the 400 response before any network call, otherwise the service is
called and its text goes through `evaluateHandleResponse`. -/
def evaluatePOST (body : SnapshotBody) (serviceText : String) : EvalOutcome :=
  if jsFalsyStr body.prompt || body.transcript.isNone then
    EvalOutcome.invalidRequest 400 "Missing required fields: prompt, transcript"
  else evaluateHandleResponse serviceText

/-- Field types appearing in the route's TypeScript declarations. -/
inductive JsType where
  | string
  | number
deriving DecidableEq, Repr

/-- The element type of `drills` in the `EvaluationResult` interface of the
evaluate route (lines 18-23): title, time, description. -/
def drillFields : List (String × JsType) :=
  [("title", JsType.string), ("time", JsType.number), ("description", JsType.string)]

/-- The `systemInstruction` string literal of the evaluate route, schema
included, verbatim. -/
def evaluateSystemInstruction : String :=
  "You are an expert design interview evaluator. Produce compact JSON with rubric scores (1-5) and improvement drills. Be specific and actionable.\n\nSchema:\n\x7b\n  \x22rubric\x22: \x7b\n    \x22problem_framing\x22: 1-5,\n    \x22idea_breadth\x22: 1-5,\n    \x22systems_thinking\x22: 1-5,\n    \x22prioritization\x22: 1-5,\n    \x22metrics_discipline\x22: 1-5,\n    \x22communication\x22: 1-5,\n    \x22velocity_with_rigor\x22: 1-5\n  \x7d,\n  \x22strengths\x22: [string],\n  \x22weaknesses\x22: [string],\n  \x22drills\x22: [\x7b\x22title\x22: string, \x22time\x22: number, \x22description\x22: string\x7d],\n  \x22narrative\x22: string\n\x7d\n\nStrictly adhere to this schema."

/-! ## TTS route (src/app/api/tts/route.ts) -/

/-- Outcome of the TTS route up to the synthesis call. -/
inductive TtsOutcome where
  | invalidRequest (status : Nat) (message : String)
  | synthesize (text : String)
deriving DecidableEq, Repr

/-- Whether the outcome reaches the synthesis call. -/
def ttsCallsSynthesis : TtsOutcome → Bool
  | TtsOutcome.synthesize _ => true
  | _ => false

/-- The TTS route's `POST` up to its synthesis call: the guard `if (!text)`
returns the 400 response, otherwise synthesis proceeds with the text. -/
def ttsPOST (text : Option String) : TtsOutcome :=
  if jsFalsyStr text then
    TtsOutcome.invalidRequest 400 "Missing required field: text"
  else TtsOutcome.synthesize (text.getD "")

/-! ## Speech playback controller (speakText in src/app/page.tsx)

`speakText` creates one object URL per call, assigns it as the shared audio
element's `src`, and installs an `onended` closure that revokes exactly that
URL.  A later call overwrites both `src` and `onended` on the same element,
so only the closure most recently installed can ever run.  URLs are
numbered in creation order; `revoked` records the URLs passed to
`URL.revokeObjectURL`. -/

/-- Events driving the playback model: a non-muted `speakText` call
reaching playback, and the audio element firing `ended`. -/
inductive PlaybackEvent where
  | speak
  | ended
deriving DecidableEq, Repr

/-- Playback-relevant state: how many object URLs were created, which were
revoked, what the audio element's src is, which URL the currently installed
`onended` closure captured, and the speaking flag. -/
structure PlaybackState where
  nextUrl : Nat
  revoked : List Nat
  src : Option Nat
  onended : Option Nat
  isSpeaking : Bool
  isMuted : Bool
deriving DecidableEq, Repr

/-- Page load: no URLs, nothing playing, not muted. -/
def initialPlayback : PlaybackState :=
  { nextUrl := 0, revoked := [], src := none, onended := none,
    isSpeaking := false, isMuted := false }

/-- One event step.  `speak`: if muted, no-op; otherwise set the speaking
flag, create a fresh object URL, point the element at it and install the
closure capturing it (overwriting any previous closure).  `ended`: run the
installed closure, which clears the speaking flag and revokes the URL it
captured; with no closure installed nothing happens. -/
def playbackStep (s : PlaybackState) : PlaybackEvent → PlaybackState
  | PlaybackEvent.speak =>
    if s.isMuted then s
    else
      { s with
          isSpeaking := true
          nextUrl := s.nextUrl + 1
          src := some s.nextUrl
          onended := some s.nextUrl }
  | PlaybackEvent.ended =>
    match s.onended with
    | none => s
    | some u => { s with isSpeaking := false, revoked := u :: s.revoked }

/-- Run a trace of playback events from the initial state. -/
def runPlayback (events : List PlaybackEvent) : PlaybackState :=
  events.foldl playbackStep initialPlayback

/-- Number of object URLs created and never revoked. -/
def liveResourceCount (s : PlaybackState) : Nat :=
  ((List.range s.nextUrl).filter (fun u => !(s.revoked.contains u))).length

/-! ## Helper lemmas -/

/-- JavaScript `includes` agrees with contiguous-sublist containment. -/
theorem includes_iff_sub (n h : List Char) : includes n h = true ↔ n <:+: h := by
  induction h with
  | nil =>
    simp [includes, List.isEmpty_iff]
  | cons c rest ih =>
    simp only [includes, Bool.or_eq_true, ih, List.isPrefixOf_iff_prefix]
    exact ( List.infix_cons_iff).symm

/-- A sublist of the left half is a sublist of the concatenation. -/
theorem sub_append_of_left {n a : List Char} (b : List Char) (h : n <:+: a) :
    n <:+: a ++ b :=
  h.trans ⟨[], b, by simp⟩

/-- A sublist of the right half is a sublist of the concatenation. -/
theorem sub_append_of_right {n b : List Char} (a : List Char) (h : n <:+: b) :
    n <:+: a ++ b :=
  h.trans ⟨a, [], by simp⟩

/-- The source's per-topic condition holds exactly when one of the topic's
keywords from the spec's table occurs in the lower-cased input. -/
theorem matchesTopic_iff_keyword (lower : List Char) (k : Topic) :
    matchesTopic lower k = true ↔ ∃ w ∈ specTopicKeywords k, w <:+: lower := by
  cases k <;>
    simp [matchesTopic, specTopicKeywords, Bool.or_eq_true, includes_iff_sub, or_assoc]

/-- Topic matching is preserved when text is appended on the right. -/
theorem matchesTopic_append_of_left {a : List Char} (b : List Char) {k : Topic}
    (h : matchesTopic a k = true) : matchesTopic (a ++ b) k = true := by
  rw [matchesTopic_iff_keyword] at h ⊢
  obtain ⟨w, hw, hsub⟩ := h
  exact ⟨w, hw, sub_append_of_left b hsub⟩

/-- Topic matching is preserved when text is prepended on the left. -/
theorem matchesTopic_append_of_right {b : List Char} (a : List Char) {k : Topic}
    (h : matchesTopic b k = true) : matchesTopic (a ++ b) k = true := by
  rw [matchesTopic_iff_keyword] at h ⊢
  obtain ⟨w, hw, hsub⟩ := h
  exact ⟨w, hw, sub_append_of_right a hsub⟩

/-- Lower-casing maps over concatenation. -/
theorem lowerChars_append (s t : List Char) :
    lowerChars (s ++ t) = lowerChars s ++ lowerChars t :=
  List.map_append _ _ _

/-- Each flag after an update is the old flag OR-ed with the new match. -/
theorem flagOf_updateCoverageTags (k : Topic) (s : CoverageTags) (t : List Char) :
    flagOf k (updateCoverageTags s t) =
      (flagOf k s || matchesTopic (lowerChars t) k) := by
  cases k <;> rfl

/-- While strictly more ticks remain than are taken, a running clock only
counts down: k ticks subtract exactly k seconds and change nothing else. -/
theorem tick_countdown (p : Phase) (k n : Nat) (h : k + 1 ≤ n) :
    Nat.iterate tick k { phase := p, timeLeft := n, running := true } =
      { phase := p, timeLeft := n - k, running := true } := by
  induction k generalizing n with
  | zero => rfl
  | succ k ih =>
    rw [Function.iterate_succ_apply]
    have hgt : ¬ n ≤ 1 := by omega
    have htick : tick { phase := p, timeLeft := n, running := true } =
        { phase := p, timeLeft := n - 1, running := true } := by
      simp [tick, hgt]
    rw [htick, ih (n - 1) (by omega)]
    congr 1
    omega

/-- Invariant for the playback leak: URL 0 is never revoked once the second
speak call has superseded it, because every closure installed from then on
captures a positive URL. -/
def leakInvariant (s : PlaybackState) : Prop :=
  s.revoked.contains 0 = false ∧ 1 ≤ s.nextUrl ∧ ∀ u, s.onended = some u → 1 ≤ u

/-- The leak invariant is preserved by every playback event. -/
theorem leakInvariant_step (s : PlaybackState) (e : PlaybackEvent)
    (h : leakInvariant s) : leakInvariant (playbackStep s e) := by
  obtain ⟨h0, h1, hu⟩ := h
  cases e with
  | speak =>
    by_cases hm : s.isMuted
    · simpa [playbackStep, hm] using ⟨h0, h1, hu⟩
    · refine ⟨by simpa [playbackStep, hm] using h0, ?_, ?_⟩
      · simp [playbackStep, hm]
      · intro u huev
        have : s.nextUrl = u := by simpa [playbackStep, hm] using huev
        omega
  | ended =>
    cases hop : s.onended with
    | none => simpa [playbackStep, hop] using ⟨h0, h1, hu⟩
    | some u =>
      have hupos : 1 ≤ u := hu u hop
      refine ⟨?_, by simpa [playbackStep, hop] using h1, ?_⟩
      · have h0' : (0 : Nat) ∉ s.revoked := by simpa using h0
        simp [playbackStep, hop]
        exact ⟨by omega, h0'⟩
      · intro v hv
        simp [playbackStep, hop] at hv
        exact hu v (by rw [hop, hv])

/-- The leak invariant is preserved by every trace of playback events. -/
theorem leakInvariant_foldl (events : List PlaybackEvent) (s : PlaybackState)
    (h : leakInvariant s) : leakInvariant (events.foldl playbackStep s) := by
  induction events generalizing s with
  | nil => exact h
  | cons e rest ih => exact ih _ (leakInvariant_step s e h)

/-! ## Claim theorems -/

/-- C1 (counterexample): a coach request whose transcript is present but
empty (zero turns), with phase and prompt supplied, passes the route's
truthiness validation — an empty array is truthy in JavaScript — so the
Coach Service network call is issued rather than a ValidationError. -/
theorem C1_empty_transcript_not_rejected :
    coachCallsService (coachPOST
      { phase := some "Discovery", prompt := some "Design a notes app",
        transcript := some [], coverageTags := none, screenshotCount := none }) = true := by
  decide

/-- C1 (amended): the coach route fails with the 400 InvalidRequest
response, issuing no network call, exactly when phase is absent or empty,
prompt is absent or empty, or the transcript field is absent altogether; a
present-but-empty transcript array is not rejected. -/
theorem C1_validation_guard (body : SnapshotBody) :
    (coachPOST body =
        CoachOutcome.invalidRequest 400 "Missing required fields: phase, prompt, transcript" ∧
      coachCallsService (coachPOST body) = false) ↔
    (jsFalsyStr body.phase || jsFalsyStr body.prompt || body.transcript.isNone) = true := by
  unfold coachPOST
  split
  · next hcond => simp [hcond, coachCallsService]
  · next hcond => simp [coachCallsService] at hcond ⊢
                  simp [hcond]

/-- C1 (witness): the guard fires on a request with a missing prompt. -/
theorem C1_validation_guard_witness :
    (coachPOST
        { phase := some "Discovery", prompt := none, transcript := some [],
          coverageTags := none, screenshotCount := none } =
        CoachOutcome.invalidRequest 400 "Missing required fields: phase, prompt, transcript" ∧
      coachCallsService (coachPOST
        { phase := some "Discovery", prompt := none, transcript := some [],
          coverageTags := none, screenshotCount := none }) = false) :=
  (C1_validation_guard _).mpr (by decide)

/-- C2 (counterexample): the Evaluator response text consisting of an empty
JSON object is missing the rubric field, yet `JSON.parse` succeeds on it, so
the route returns it as a success — not the parse-failure response carrying
the raw text. -/
theorem C2_missing_rubric_not_parse_error :
    isParseError (evaluateHandleResponse "\x7b\x7d") = false ∧
    hasKey (Json.obj []) "rubric" = false ∧
    evaluateHandleResponse "\x7b\x7d" = EvalOutcome.success (Json.obj []) :=
  ⟨rfl, rfl, rfl⟩

/-- C2 (amended): past validation, the evaluate route returns the
parse-failure response carrying the original raw text exactly when the
response text is not valid JSON; any syntactically valid JSON response —
rubric or no rubric — is passed through unchanged as success. -/
theorem C2_parse_failure_carries_raw (body : SnapshotBody) (text : String)
    (hprompt : jsFalsyStr body.prompt = false)
    (htranscript : body.transcript.isNone = false) :
    (jsonParse text = none →
      evaluatePOST body text = EvalOutcome.parseError "Failed to parse evaluation" text) ∧
    (∀ j, jsonParse text = some j → evaluatePOST body text = EvalOutcome.success j) := by
  unfold evaluatePOST evaluateHandleResponse
  rw [hprompt, htranscript]
  simp only [Bool.or_self, Bool.false_or, if_neg Bool.false_ne_true]
  constructor
  · intro h
    rw [h]
  · intro j h
    rw [h]

/-- C2 (witness): with a valid body, the unparseable response text `oops`
yields the parse-failure response carrying `oops` itself, and the
rubric-less but valid response text consisting of an empty JSON object
yields a success. -/
theorem C2_parse_failure_carries_raw_witness :
    evaluatePOST
        { phase := some "Presentation", prompt := some "Design a notes app",
          transcript := some [{ role := "You", text := "hi" }],
          coverageTags := none, screenshotCount := none } "oops" =
      EvalOutcome.parseError "Failed to parse evaluation" "oops" ∧
    evaluatePOST
        { phase := some "Presentation", prompt := some "Design a notes app",
          transcript := some [{ role := "You", text := "hi" }],
          coverageTags := none, screenshotCount := none } "\x7b\x7d" =
      EvalOutcome.success (Json.obj []) :=
  ⟨(C2_parse_failure_carries_raw _ "oops" (by decide) (by decide)).1 rfl,
   (C2_parse_failure_carries_raw _ "\x7b\x7d" (by decide) (by decide)).2 (Json.obj []) rfl⟩

/-- C3 (counterexample): detection is not order-independent under
concatenation — neither `go` nor `al` matches any keyword, but their
concatenation `goal` matches the framing topic, so detect of the
concatenation differs from the union of the separate detections. -/
theorem C3_concat_union_fails :
    ¬ (detect ("go".toList ++ "al".toList) =
        detect "go".toList ∪ detect "al".toList) := by
  decide

/-- C3 (amended): detect is pure and monotone under concatenation — every
topic detected on either string alone is detected on the concatenation;
the inclusion can be strict because keywords may straddle the seam. -/
theorem C3_concat_superset (s t : List Char) :
    detect s ∪ detect t ⊆ detect (s ++ t) := by
  intro k hk
  rw [Finset.mem_union] at hk
  simp only [detect, Finset.mem_filter, Finset.mem_univ, true_and, lowerChars_append] at hk ⊢
  rcases hk with h | h
  · exact matchesTopic_append_of_left _ h
  · exact matchesTopic_append_of_right _ h

/-- C3 (witness): the inclusion at the counterexample strings. -/
theorem C3_concat_superset_witness :
    detect "go".toList ∪ detect "al".toList ⊆ detect ("go".toList ++ "al".toList) :=
  C3_concat_superset "go".toList "al".toList

/-- C4: from the initial clock (Discovery, 1200 seconds, running), 1200
ticks land exactly on Heads-down with its full 1500 seconds remaining, and
a further 1500 + 900 ticks end at Presentation with 0 remaining and the
clock stopped. -/
theorem C4_phase_timer_schedule :
    Nat.iterate tick 1200 initialClock =
      { phase := Phase.HeadsDown, timeLeft := 1500, running := true } ∧
    Nat.iterate tick (1500 + 900) (Nat.iterate tick 1200 initialClock) =
      { phase := Phase.Presentation, timeLeft := 0, running := false } := by
  have h1200 : Nat.iterate tick 1200 initialClock =
      { phase := Phase.HeadsDown, timeLeft := 1500, running := true } := by
    show Nat.iterate tick (1 + 1199)
        { phase := Phase.Discovery, timeLeft := 1200, running := true } = _
    rw [Function.iterate_add_apply, tick_countdown Phase.Discovery 1199 1200 (by omega)]
    decide
  refine ⟨h1200, ?_⟩
  rw [h1200]
  show Nat.iterate tick (900 + 1500) _ = _
  rw [Function.iterate_add_apply]
  have h1500 : Nat.iterate tick 1500
      { phase := Phase.HeadsDown, timeLeft := 1500, running := true } =
      { phase := Phase.Presentation, timeLeft := 900, running := true } := by
    show Nat.iterate tick (1 + 1499) _ = _
    rw [Function.iterate_add_apply, tick_countdown Phase.HeadsDown 1499 1500 (by omega)]
    decide
  rw [h1500]
  show Nat.iterate tick (1 + 899) _ = _
  rw [Function.iterate_add_apply, tick_countdown Phase.Presentation 899 900 (by omega)]
  decide

/-- C5: detect returns a topic exactly when one of that topic's keywords
from the spec's fixed table occurs contiguously in the lower-cased input;
in particular an input matching no keyword yields the empty set. -/
theorem C5_detect_keyword_characterization (text : List Char) (k : Topic) :
    k ∈ detect text ↔ ∃ w ∈ specTopicKeywords k, w <:+: lowerChars text := by
  rw [detect, Finset.mem_filter]
  simp [matchesTopic_iff_keyword]

/-- C5 (witness): the characterization instantiated at a concrete
utterance and topic. -/
theorem C5_detect_keyword_characterization_witness :
    Topic.users ∈ detect "Our main user is a busy parent".toList ↔
      ∃ w ∈ specTopicKeywords Topic.users,
        w <:+: lowerChars "Our main user is a busy parent".toList :=
  C5_detect_keyword_characterization _ _

/-- C6: coverage flags are monotonic — a flag true in any starting
coverage state stays true after any sequence of appended participant
turns is folded through updateCoverageTags. -/
theorem C6_coverage_monotonic (init : CoverageTags) (texts : List (List Char))
    (k : Topic) (h : flagOf k init = true) :
    flagOf k (texts.foldl updateCoverageTags init) = true := by
  induction texts generalizing init with
  | nil => exact h
  | cons t rest ih =>
    exact ih (updateCoverageTags init t)
      (by rw [flagOf_updateCoverageTags, h, Bool.true_or])

/-- C6 (witness): a set framing flag survives two further turns that do not
mention framing. -/
theorem C6_coverage_monotonic_witness :
    flagOf Topic.framing
      { framing := true, constraints := false, users := false, ideation := false,
        systems := false, metrics := false, accessibility := false } = true ∧
    flagOf Topic.framing
      (["hello there".toList, "nice weather".toList].foldl updateCoverageTags
        { framing := true, constraints := false, users := false, ideation := false,
          systems := false, metrics := false, accessibility := false }) = true :=
  ⟨by decide, C6_coverage_monotonic _ _ Topic.framing (by decide)⟩

set_option maxRecDepth 10000 in
/-- C7 (counterexample): neither the declared `EvaluationResult` drill
element type nor the schema sent to the Evaluator mentions a `minutes`
field — the number field of a drill is named `time`. -/
theorem C7_minutes_field_absent :
    ((drillFields.map Prod.fst).contains "minutes") = false ∧
    includes "minutes".toList evaluateSystemInstruction.toList = false := by
  constructor
  · decide
  · decide

set_option maxRecDepth 10000 in
/-- C7 (amended): each drill is declared with exactly the fields title
(string), time (number) and description (string), and each of those field
names is the one requested, quoted, in the schema instruction sent to the
Evaluator Service. -/
theorem C7_drill_fields_declared :
    drillFields.map Prod.fst = ["title", "time", "description"] ∧
    drillFields.map Prod.snd = [JsType.string, JsType.number, JsType.string] ∧
    ((drillFields.map Prod.fst).all
      (fun n => includes ("\x22" ++ n ++ "\x22").toList
        evaluateSystemInstruction.toList)) = true := by
  refine ⟨rfl, rfl, ?_⟩
  decide

/-- C8: manual phase selection replaces the whole clock state — the
requested phase becomes active, the remaining time resets to that phase's
full nominal duration (Discovery 1200 s, Heads-down 1500 s, Presentation
900 s) and the clock is forced to run, whatever the prior state was. -/
theorem C8_manual_phase_selection (s : ClockState) (p : Phase) :
    changePhase s p =
      { phase := p, timeLeft := PHASE_DURATIONS p, running := true } ∧
    PHASE_DURATIONS Phase.Discovery = 1200 ∧
    PHASE_DURATIONS Phase.HeadsDown = 1500 ∧
    PHASE_DURATIONS Phase.Presentation = 900 :=
  ⟨rfl, rfl, rfl, rfl⟩

/-- C8 (witness): manual selection of Heads-down from a stopped
Presentation clock. -/
theorem C8_manual_phase_selection_witness :
    changePhase { phase := Phase.Presentation, timeLeft := 0, running := false }
        Phase.HeadsDown =
      { phase := Phase.HeadsDown, timeLeft := PHASE_DURATIONS Phase.HeadsDown,
        running := true } ∧
    PHASE_DURATIONS Phase.Discovery = 1200 ∧
    PHASE_DURATIONS Phase.HeadsDown = 1500 ∧
    PHASE_DURATIONS Phase.Presentation = 900 :=
  C8_manual_phase_selection _ _

/-- C9: the code leaks the superseded playback resource.  After one speak
call the first object URL (number 0) is live and unfinished; a second speak
call supersedes it, after which two object URLs are live at once, and no
continuation of the trace ever revokes URL 0, because the only code path
that revokes it — the first call's `onended` closure — has been
overwritten on the shared audio element. -/
theorem C9_superseded_url_leaks :
    (runPlayback [PlaybackEvent.speak]).revoked = [] ∧
    (runPlayback [PlaybackEvent.speak]).onended = some 0 ∧
    liveResourceCount (runPlayback [PlaybackEvent.speak, PlaybackEvent.speak]) = 2 ∧
    ∀ more : List PlaybackEvent,
      ((more.foldl playbackStep
        (runPlayback [PlaybackEvent.speak, PlaybackEvent.speak])).revoked.contains 0)
        = false := by
  refine ⟨rfl, rfl, by decide, ?_⟩
  intro more
  have hinv : leakInvariant (runPlayback [PlaybackEvent.speak, PlaybackEvent.speak]) := by
    refine ⟨by decide, by decide, ?_⟩
    intro u hu
    have : (1 : Nat) = u := by
      simpa [runPlayback, playbackStep, initialPlayback] using hu
    omega
  exact (leakInvariant_foldl more _ hinv).1

/-- C10: the speech-synthesis route rejects an empty text field with the
same 400 validation response as an absent text field — JavaScript
truthiness makes the required-field check treat the empty string as
missing — and in neither case does synthesis proceed. -/
theorem C10_empty_text_rejected :
    ttsPOST (some "") = TtsOutcome.invalidRequest 400 "Missing required field: text" ∧
    ttsPOST none = TtsOutcome.invalidRequest 400 "Missing required field: text" ∧
    ttsPOST (some "") = ttsPOST none ∧
    ttsCallsSynthesis (ttsPOST (some "")) = false ∧
    ttsCallsSynthesis (ttsPOST none) = false := by
  refine ⟨by decide, by decide, by decide, by decide, by decide⟩

end DesignCoach
